import Mathlib

/-!
Shallow embedding of `getTemplateInstallPackage` from `createToolchain.js`
(the template-reference resolver of the create-toolchain CLI).

JS strings are modelled as `List Char`.  The function's `Promise.resolve`
wrapper is dropped (the computation inside is synchronous); a thrown
`TypeError` (accessing `[1]` of a `null` regex-match result) is modelled as
`none`, a normal return as `some`.  Node's `path.resolve` is an external
collaborator and is passed in as an explicit function parameter
`pathResolve`.
-/

/-- JS regex `.` matches any character except a line terminator
(`\n`, `\r`, U+2028, U+2029). -/
def isLineTerminator (c : Char) : Bool :=
  c = '\n' || c = '\r' || c.val = 0x2028 || c.val = 0x2029

/-- JS `haystack.includes(needle)`: `needle` occurs as a contiguous
substring of the second argument. -/
def jsIncludes (needle : List Char) : List Char → Bool
  | [] => needle.isEmpty
  | c :: cs => needle.isPrefixOf (c :: cs) || jsIncludes needle cs

/-- One alternative of the JS regex `/^.+\.(tgz|tar\.gz)$/`: the string ends
with `ext` (the dot included) and the part before `ext` is nonempty and free
of line terminators (`.+` cannot cross a line terminator). -/
def archiveVia (ext s : List Char) : Bool :=
  ext.isSuffixOf s &&
    (let pre := s.take (s.length - ext.length)
     !pre.isEmpty && pre.all (fun c => !isLineTerminator c))

/-- JS `template.match(/^.+\.(tgz|tar\.gz)$/) !== null`.  The anchored regex
matches exactly when the string splits as a nonempty line-terminator-free
prefix followed by `.tgz` or `.tar.gz`. -/
def matchesArchive (s : List Char) : Bool :=
  archiveVia ".tgz".data s || archiveVia ".tar.gz".data s

/-- The trailing group `(@.+)?$` of the package regex applied to the residue
`v` of the input: it matches the empty residue (group absent), or `@`
followed by a nonempty run of non-line-terminator characters reaching the
end of the input.  Returns the captured text (`[]` for an absent group, as
JS code reads `undefined || ''`). -/
def matchVersionPart (v : List Char) : Option (List Char) :=
  match v with
  | [] => some []
  | c :: w =>
    if c = '@' && !w.isEmpty && w.all (fun x => !isLineTerminator x) then
      some (c :: w)
    else
      none

/-- The groups `([^@]+)?(@.+)?$` of the package regex applied to residue
`u`.  The greedy `[^@]+` can only capture the maximal `@`-free prefix of
`u` (possibly empty, i.e. absent), so backtracking collapses to one
deterministic split; the rest must be accepted by `matchVersionPart`.
Returns (captured name, captured version). -/
def matchNameVersion (u : List Char) : Option (List Char × List Char) :=
  let name := u.takeWhile (fun x => x ≠ '@')
  let rest := u.dropWhile (fun x => x ≠ '@')
  match matchVersionPart rest with
  | some ver => some (name, ver)
  | none => none

/-- Outcome of the package regex when its scope group `(@[^\/]+\/)?` is
absent: only `([^@]+)?(@.+)?$` consume the whole input. -/
def noScopeResult (s : List Char) : Option (List Char × List Char × List Char) :=
  match matchNameVersion s with
  | some (n, v) => some (([] : List Char), n, v)
  | none => none

/-- JS `template.match(/^(@[^\/]+\/)?([^@]+)?(@.+)?$/)` with captured groups
read back as strings (`undefined` becomes `[]`).  The greedy optional group
`(@[^\/]+\/)?` can only capture up to the first `/` (when the input starts
with `@` and a nonempty `/`-free run precedes that `/`); if the remainder
then fails, the engine backtracks and retries with the scope group absent.
`none` models a failed match (JS `null`). -/
def matchPackagePattern (s : List Char) : Option (List Char × List Char × List Char) :=
  match s with
  | [] => noScopeResult s
  | c :: rest =>
    if c = '@' then
      let scopeBody := rest.takeWhile (fun x => x ≠ '/')
      let afterScope := rest.dropWhile (fun x => x ≠ '/')
      if scopeBody.isEmpty || afterScope.isEmpty then
        noScopeResult s
      else
        match matchNameVersion afterScope.tail with
        | some (n, v) => some ('@' :: (scopeBody ++ ['/']), n, v)
        | none => noScopeResult s
    else
      noScopeResult s

/-- The literal `'tjs-template'` assigned to `templateToInstall`. -/
def defaultTemplate : List Char := "tjs-template".data

/-- The three-way branch of the package-style case of
`getTemplateInstallPackage`, on the decomposed `scope`, `templateName` and
`version` (empty list = JS falsy `''`). -/
def packageResult (scope name version : List Char) : List Char :=
  if name = defaultTemplate ∨ (defaultTemplate ++ ['-']).isPrefixOf name = true then
    scope ++ name ++ version
  else if version ≠ [] ∧ scope = [] ∧ name = [] then
    version ++ '/' :: defaultTemplate
  else
    scope ++ defaultTemplate ++ '-' :: (name ++ version)

/-- `getTemplateInstallPackage(template, programDirectory)` from
`createToolchain.js`.  `template` is `none` for an absent argument; the JS
falsy test `if (template)` also treats the empty string as absent.
`pathResolve` stands for Node's `path.resolve`.  A result of `none` models
a thrown `TypeError`.  In the `file:` branch the code throws in two cases:
when the suffix after `file:` contains a line terminator, the regex
`/^file:(.*)?$/` returns `null` and reading `[1]` throws; when the suffix
is empty, the min-zero quantifier `(.*)?` refuses an empty iteration (the
ECMA RepeatMatcher empty-match rule), so group 1 is `undefined` and
`path.resolve(programDirectory, undefined)` throws in Node >= 12.  So the
branch returns a value exactly when the suffix is nonempty and free of
line terminators. -/
def getTemplateInstallPackage
    (pathResolve : List Char → List Char → List Char)
    (template : Option (List Char)) (programDirectory : List Char) :
    Option (List Char) :=
  match template with
  | none => some defaultTemplate
  | some t =>
    if t.isEmpty then
      some defaultTemplate
    else if "file:".data.isPrefixOf t then
      let suffix := t.drop 5
      if !suffix.isEmpty && suffix.all (fun c => !isLineTerminator c) then
        some ("file:".data ++ pathResolve programDirectory suffix)
      else
        none
    else if jsIncludes "://".data t || matchesArchive t then
      some t
    else
      match matchPackagePattern t with
      | none => none
      | some (scope, name, version) => some (packageResult scope name version)

/-! Helper lemmas about the embedded string operations. -/

lemma bool_ne_true {b : Bool} (h : ¬ b = true) : b = false := by
  cases b
  · rfl
  · exact absurd rfl h

lemma takeWhile_append_all (p : Char → Bool) (a b : List Char)
    (h : ∀ x ∈ a, p x = true) :
    (a ++ b).takeWhile p = a ++ b.takeWhile p := by
  induction a with
  | nil => rfl
  | cons c cs ih =>
    have hc : p c = true := h c (by simp)
    simp only [List.cons_append, List.takeWhile_cons, hc, if_true]
    rw [ih (fun x hx => h x (by simp [hx]))]

lemma dropWhile_append_all (p : Char → Bool) (a b : List Char)
    (h : ∀ x ∈ a, p x = true) :
    (a ++ b).dropWhile p = b.dropWhile p := by
  induction a with
  | nil => rfl
  | cons c cs ih =>
    have hc : p c = true := h c (by simp)
    simp only [List.cons_append, List.dropWhile_cons, hc, if_true]
    exact ih (fun x hx => h x (by simp [hx]))

lemma isPrefixOf_append_right (a b : List Char) :
    a.isPrefixOf (a ++ b) = true := by
  induction a with
  | nil => cases b <;> rfl
  | cons c cs ih => simp [List.isPrefixOf, ih]

lemma isPrefixOf_file_cons (c : Char) (cs : List Char) (hc : c ≠ 'f') :
    "file:".data.isPrefixOf (c :: cs) = false := by
  have h5 : "file:".data = 'f' :: "ile:".data := rfl
  rw [h5]
  simp only [List.isPrefixOf, Bool.and_eq_false_iff]
  exact Or.inl (beq_eq_false_iff_ne.mpr fun h => hc h.symm)

/-! Inversion lemmas for the regex models. -/

lemma matchVersionPart_eq {v ver : List Char}
    (h : matchVersionPart v = some ver) : ver = v := by
  cases v with
  | nil =>
    simp only [matchVersionPart, Option.some.injEq] at h
    exact h.symm
  | cons c w =>
    simp only [matchVersionPart] at h
    split at h
    · exact (Option.some.injEq _ _ ▸ h).symm
    · exact absurd h (by simp)

lemma matchVersionPart_shape {v : List Char}
    (h : matchVersionPart v = some v) :
    v = [] ∨ ∃ w, v = '@' :: w ∧ w ≠ [] ∧
      w.all (fun x => !isLineTerminator x) = true := by
  cases v with
  | nil => exact Or.inl rfl
  | cons c w =>
    simp only [matchVersionPart] at h
    split at h
    · rename_i hcond
      simp only [Bool.and_eq_true, decide_eq_true_eq, Bool.not_eq_true'] at hcond
      refine Or.inr ⟨w, ?_, ?_, hcond.2⟩
      · rw [hcond.1.1]
      · intro hw
        rw [hw] at hcond
        exact absurd hcond.1.2 (by simp)
    · exact absurd h (by simp)

lemma matchNameVersion_eq {u n v : List Char}
    (h : matchNameVersion u = some (n, v)) :
    n = u.takeWhile (fun x => x ≠ '@') ∧ v = u.dropWhile (fun x => x ≠ '@') ∧
      matchVersionPart v = some v ∧ n ++ v = u := by
  simp only [matchNameVersion] at h
  cases hm : matchVersionPart (u.dropWhile (fun x => x ≠ '@')) with
  | none => rw [hm] at h; exact absurd h (by simp)
  | some ver =>
    rw [hm] at h
    simp only [Option.some.injEq, Prod.mk.injEq] at h
    obtain ⟨hn, hv⟩ := h
    have hver : ver = u.dropWhile (fun x => x ≠ '@') := matchVersionPart_eq hm
    refine ⟨hn.symm, ?_, ?_, ?_⟩
    · rw [← hv]; exact hver
    · rw [← hv, hver]
      rw [hver] at hm
      exact hm
    · rw [← hn, ← hv, hver]
      exact List.takeWhile_append_dropWhile ..

lemma mem_takeWhile_ne (c : Char) (l : List Char) :
    ∀ x ∈ l.takeWhile (fun x => x ≠ c), x ≠ c := by
  intro x hx
  have := List.mem_takeWhile_imp hx
  simpa using this

lemma noScopeResult_eq {s sc n v : List Char}
    (h : noScopeResult s = some (sc, n, v)) :
    sc = [] ∧ matchNameVersion s = some (n, v) := by
  simp only [noScopeResult] at h
  cases hm : matchNameVersion s with
  | none => rw [hm] at h; exact absurd h (by simp)
  | some nv =>
    rw [hm] at h
    cases nv with
    | mk n' v' =>
      simp only [Option.some.injEq, Prod.mk.injEq] at h
      obtain ⟨h1, h2, h3⟩ := h
      refine ⟨h1.symm, ?_⟩
      rw [h2, h3]

lemma dropWhile_head_not (p : Char → Bool) (l : List Char) (c : Char)
    (tl : List Char) (h : l.dropWhile p = c :: tl) : p c = false := by
  induction l with
  | nil => simp [List.dropWhile] at h
  | cons a as ih =>
    rw [List.dropWhile_cons] at h
    by_cases hp : p a = true
    · exact ih (by rwa [if_pos hp] at h)
    · rw [if_neg hp] at h
      cases h
      exact bool_ne_true hp

/-- A successful package-pattern match reassembles to the input and fixes
the shape of the three captured groups. -/
lemma matchPackagePattern_spec {s sc n v : List Char}
    (h : matchPackagePattern s = some (sc, n, v)) :
    sc ++ (n ++ v) = s ∧
      (sc = [] ∨ ∃ b, sc = '@' :: (b ++ ['/']) ∧ b ≠ [] ∧ ∀ x ∈ b, x ≠ '/') ∧
      (∀ x ∈ n, x ≠ '@') ∧ matchVersionPart v = some v := by
  have base : ∀ {u n' v' : List Char}, matchNameVersion u = some (n', v') →
      n' ++ v' = u ∧ (∀ x ∈ n', x ≠ '@') ∧ matchVersionPart v' = some v' := by
    intro u n' v' hm
    obtain ⟨hn, _, hver, happ⟩ := matchNameVersion_eq hm
    refine ⟨happ, ?_, hver⟩
    rw [hn]
    exact mem_takeWhile_ne '@' u
  have fromNoScope : noScopeResult s = some (sc, n, v) →
      sc ++ (n ++ v) = s ∧
        (sc = [] ∨ ∃ b, sc = '@' :: (b ++ ['/']) ∧ b ≠ [] ∧ ∀ x ∈ b, x ≠ '/') ∧
        (∀ x ∈ n, x ≠ '@') ∧ matchVersionPart v = some v := by
    intro hns
    obtain ⟨hsc, hm⟩ := noScopeResult_eq hns
    obtain ⟨happ, hnn, hver⟩ := base hm
    subst hsc
    exact ⟨by simpa using happ, Or.inl rfl, hnn, hver⟩
  cases s with
  | nil => exact fromNoScope h
  | cons c rest =>
    simp only [matchPackagePattern] at h
    by_cases hc : c = '@'
    · rw [if_pos hc] at h
      by_cases hempty :
          ((rest.takeWhile (fun x => x ≠ '/')).isEmpty ||
            (rest.dropWhile (fun x => x ≠ '/')).isEmpty) = true
      · rw [if_pos hempty] at h
        exact fromNoScope h
      · rw [if_neg hempty] at h
        cases hm : matchNameVersion (rest.dropWhile (fun x => x ≠ '/')).tail with
        | none =>
          rw [hm] at h
          exact fromNoScope h
        | some nv =>
          rw [hm] at h
          cases nv with
          | mk n' v' =>
            simp only [Option.some.injEq, Prod.mk.injEq] at h
            obtain ⟨h1, h2, h3⟩ := h
            subst h1 h2 h3
            simp only [Bool.or_eq_true, not_or] at hempty
            obtain ⟨hbody, hafter⟩ := hempty
            have hbody' : rest.takeWhile (fun x => x ≠ '/') ≠ [] := by
              intro hx
              exact hbody (by rw [hx]; rfl)
            have hafter' : rest.dropWhile (fun x => x ≠ '/') ≠ [] := by
              intro hx
              exact hafter (by rw [hx]; rfl)
            obtain ⟨d, tl, hdtl⟩ : ∃ d tl,
                rest.dropWhile (fun x => x ≠ '/') = d :: tl := by
              cases hx : rest.dropWhile (fun x => x ≠ '/') with
              | nil => exact absurd hx hafter'
              | cons d tl => exact ⟨d, tl, rfl⟩
            have hd : d = '/' := by
              have := dropWhile_head_not _ _ _ _ hdtl
              simpa using this
            obtain ⟨happ, hnn, hver⟩ := base hm
            refine ⟨?_, ?_, hnn, hver⟩
            · rw [hc]
              have hsplit : rest.takeWhile (fun x => x ≠ '/') ++
                  rest.dropWhile (fun x => x ≠ '/') = rest :=
                List.takeWhile_append_dropWhile ..
              rw [hdtl, hd] at hsplit
              rw [hdtl] at happ
              simp only [List.tail_cons] at happ
              calc ('@' :: (rest.takeWhile (fun x => x ≠ '/') ++ ['/'])) ++ (n' ++ v')
                  = '@' :: (rest.takeWhile (fun x => x ≠ '/') ++ ('/' :: (n' ++ v'))) := by
                    simp
                _ = '@' :: (rest.takeWhile (fun x => x ≠ '/') ++ ('/' :: tl)) := by
                    rw [happ]
                _ = '@' :: rest := by rw [hsplit]
            · refine Or.inr ⟨rest.takeWhile (fun x => x ≠ '/'), rfl, hbody', ?_⟩
              exact mem_takeWhile_ne '/' rest
    · rw [if_neg hc] at h
      exact fromNoScope h

lemma noScopeResult_of {s n v : List Char}
    (hm : matchNameVersion s = some (n, v)) :
    noScopeResult s = some ([], n, v) := by
  simp only [noScopeResult]
  rw [hm]

lemma matchPackagePattern_head_ne (s : List Char) (c : Char) (rest : List Char)
    (hs : s = c :: rest) (hc : ¬ c = '@') :
    matchPackagePattern s = noScopeResult s := by
  subst hs
  simp only [matchPackagePattern]
  rw [if_neg hc]

/-- Re-parsing a canonical tail: a name already carrying the
`tjs-template-` prefix, followed by a well-formed version suffix, is
decomposed back into exactly those two groups. -/
lemma matchNameVersion_canonical {n v : List Char}
    (hn : ∀ x ∈ n, x ≠ '@') (hv : matchVersionPart v = some v) :
    matchNameVersion ((defaultTemplate ++ '-' :: n) ++ v) =
      some (defaultTemplate ++ '-' :: n, v) := by
  have hall : ∀ x ∈ defaultTemplate ++ '-' :: n,
      (fun x => decide (x ≠ '@')) x = true := by
    intro x hx
    simp only [List.mem_append, List.mem_cons] at hx
    rcases hx with hx | hx | hx
    · have hd : ∀ y ∈ defaultTemplate, y ≠ '@' := by decide
      simpa using hd x hx
    · subst hx; decide
    · simpa using hn x hx
  have hvtk : v.takeWhile (fun x => x ≠ '@') = [] := by
    rcases matchVersionPart_shape hv with rfl | ⟨w, rfl, _, _⟩
    · rfl
    · rw [List.takeWhile_cons]
      simp
  have hvdp : v.dropWhile (fun x => x ≠ '@') = v := by
    rcases matchVersionPart_shape hv with rfl | ⟨w, rfl, _, _⟩
    · rfl
    · rw [List.dropWhile_cons]
      simp
  simp only [matchNameVersion]
  rw [takeWhile_append_all _ _ _ hall, dropWhile_append_all _ _ _ hall,
    hvtk, hvdp, hv]
  simp

/-- Re-parsing a full canonical result `scope ++ tjs-template-name ++
version` recovers the scope, the prefixed name and the version. -/
lemma matchPackagePattern_canonical {sc n v : List Char}
    (hsc : sc = [] ∨ ∃ b, sc = '@' :: (b ++ ['/']) ∧ b ≠ [] ∧ ∀ x ∈ b, x ≠ '/')
    (hn : ∀ x ∈ n, x ≠ '@') (hv : matchVersionPart v = some v) :
    matchPackagePattern (sc ++ defaultTemplate ++ '-' :: (n ++ v)) =
      some (sc, defaultTemplate ++ '-' :: n, v) := by
  have hmnv : matchNameVersion ((defaultTemplate ++ '-' :: n) ++ v) =
      some (defaultTemplate ++ '-' :: n, v) := matchNameVersion_canonical hn hv
  have h2 : matchNameVersion (defaultTemplate ++ '-' :: (n ++ v)) =
      some (defaultTemplate ++ '-' :: n, v) := by
    simpa using hmnv
  rcases hsc with rfl | ⟨b, rfl, hbne, hball⟩
  · show matchPackagePattern ('t' :: ("js-template".data ++ '-' :: (n ++ v))) =
      some ([], defaultTemplate ++ '-' :: n, v)
    rw [matchPackagePattern_head_ne _ 't'
      ("js-template".data ++ '-' :: (n ++ v)) rfl (by decide)]
    exact noScopeResult_of
      (show matchNameVersion ('t' :: ("js-template".data ++ '-' :: (n ++ v))) =
        some (defaultTemplate ++ '-' :: n, v) from h2)
  · have hrest : ('@' :: (b ++ ['/'])) ++ defaultTemplate ++ '-' :: (n ++ v) =
        '@' :: (b ++ '/' :: (defaultTemplate ++ '-' :: (n ++ v))) := by
      simp
    rw [hrest]
    have hball' : ∀ x ∈ b, (fun x => decide (x ≠ '/')) x = true := by
      intro x hx
      simpa using hball x hx
    have htw : (b ++ '/' :: (defaultTemplate ++ '-' :: (n ++ v))).takeWhile
        (fun x => x ≠ '/') = b := by
      rw [takeWhile_append_all _ _ _ hball', List.takeWhile_cons]
      simp
    have hdw : (b ++ '/' :: (defaultTemplate ++ '-' :: (n ++ v))).dropWhile
        (fun x => x ≠ '/') = '/' :: (defaultTemplate ++ '-' :: (n ++ v)) := by
      rw [dropWhile_append_all _ _ _ hball', List.dropWhile_cons]
      simp
    have hbe : b.isEmpty = false := by
      cases b
      · exact absurd rfl hbne
      · rfl
    simp only [matchPackagePattern, if_pos (show ('@' : Char) = '@' from rfl),
      htw, hdw, hbe, List.isEmpty_cons, Bool.or_false, Bool.false_eq_true,
      if_false, if_true, List.tail_cons, h2]

/-! Branch-selection lemmas for `getTemplateInstallPackage`. -/

lemma getTemplateInstallPackage_package
    (pr : List Char → List Char → List Char) {t : List Char} (d : List Char)
    (hne : t ≠ [])
    (hf : "file:".data.isPrefixOf t = false)
    (hu : jsIncludes "://".data t = false)
    (ha : matchesArchive t = false) :
    getTemplateInstallPackage pr (some t) d =
      match matchPackagePattern t with
      | none => none
      | some (sc, n, v) => some (packageResult sc n v) := by
  have h0 : t.isEmpty = false := by
    cases t
    · exact absurd rfl hne
    · rfl
  simp only [getTemplateInstallPackage, h0, hf, hu, ha]
  simp

lemma getTemplateInstallPackage_package_some
    (pr : List Char → List Char → List Char) {t : List Char} (d : List Char)
    {sc n v : List Char} (hne : t ≠ [])
    (hf : "file:".data.isPrefixOf t = false)
    (hu : jsIncludes "://".data t = false)
    (ha : matchesArchive t = false)
    (hm : matchPackagePattern t = some (sc, n, v)) :
    getTemplateInstallPackage pr (some t) d =
      some (packageResult sc n v) := by
  rw [getTemplateInstallPackage_package pr d hne hf hu ha, hm]

lemma getTemplateInstallPackage_passthrough
    (pr : List Char → List Char → List Char) {t : List Char} (d : List Char)
    (hf : "file:".data.isPrefixOf t = false)
    (hu : (jsIncludes "://".data t || matchesArchive t) = true) :
    getTemplateInstallPackage pr (some t) d = some t := by
  have hne : t ≠ [] := by
    rintro rfl
    exact absurd hu (by decide)
  have h0 : t.isEmpty = false := by
    cases t
    · exact absurd rfl hne
    · rfl
  simp only [getTemplateInstallPackage, h0, hf, hu]
  simp

lemma getTemplateInstallPackage_file
    (pr : List Char → List Char → List Char) {t : List Char} (d : List Char)
    (hf : "file:".data.isPrefixOf t = true)
    (hsuf : (t.drop 5).isEmpty = false)
    (hterm : (t.drop 5).all (fun c => !isLineTerminator c) = true) :
    getTemplateInstallPackage pr (some t) d =
      some ("file:".data ++ pr d (t.drop 5)) := by
  have h0 : t.isEmpty = false := by
    cases t
    · exact absurd hf (by decide)
    · rfl
  simp only [getTemplateInstallPackage, h0, hf, hsuf, hterm]
  simp

example :
    getTemplateInstallPackage (fun _ s => s) (some "my-template".data) [] =
      some "tjs-template-my-template".data := by decide

example :
    getTemplateInstallPackage (fun _ s => s)
      (some "@scope/my-template@1.0.0".data) [] =
      some "@scope/tjs-template-my-template@1.0.0".data := by decide

example :
    getTemplateInstallPackage (fun _ s => s) (some "@toolchain-js".data) [] =
      some "@toolchain-js/tjs-template".data := by decide

example :
    getTemplateInstallPackage (fun _ s => s)
      (some "@toolchain-js/tjs-template@next".data) [] =
      some "@toolchain-js/tjs-template@next".data := by decide

example :
    getTemplateInstallPackage (fun _ s => s)
      (some "http://example.com/tjs-template.tar.gz".data) [] =
      some "http://example.com/tjs-template.tar.gz".data := by decide

example :
    getTemplateInstallPackage (fun _ s => s) (some "@".data) [] = none := by
  decide

example :
    getTemplateInstallPackage (fun _ s => s) (some ".tgz".data) [] =
      some "tjs-template-.tgz".data := by decide

example :
    getTemplateInstallPackage (fun d s => d ++ s) (some "file:../x".data)
      "/base".data = some ("file:".data ++ ("/base".data ++ "../x".data)) := by
  decide

/-! Claim theorems. -/

/-- C1 (counterexample): the resolver is not total: on the input `"@"` the
package regex fails to match and reading group 1 of the `null` result
throws a TypeError (modelled as `none`), so `"@"` yields no string. -/
theorem resolver_throws_on_bare_at :
    getTemplateInstallPackage (fun _ s => s) (some "@".data) [] = none := by
  decide

/-- C1 (amended): the resolver returns a string for every input except
the exception sets where it throws a TypeError: `file:`-prefixed inputs
whose suffix after `file:` is empty (the `(.*)?` capture is `undefined`
and `path.resolve` rejects it) or contains a line terminator (the second
`file:` regex returns `null`), and package-style inputs on which the
decomposition regex fails to match (such as a bare `"@"`).  Stated as an
exact characterization of the thrown (`none`) results. -/
theorem resolver_none_characterization
    (pr : List Char → List Char → List Char) (t d : List Char) :
    getTemplateInstallPackage pr (some t) d = none ↔
      ("file:".data.isPrefixOf t = true ∧
        (t.drop 5 = [] ∨
          (t.drop 5).all (fun c => !isLineTerminator c) = false)) ∨
      (t ≠ [] ∧ "file:".data.isPrefixOf t = false ∧
        jsIncludes "://".data t = false ∧ matchesArchive t = false ∧
        matchPackagePattern t = none) := by
  by_cases h0 : t = []
  · subst h0
    rw [show getTemplateInstallPackage pr (some []) d = some defaultTemplate
      from rfl]
    simp
  · have h0' : t.isEmpty = false := by
      cases t
      · exact absurd rfl h0
      · rfl
    by_cases hf : "file:".data.isPrefixOf t = true
    · by_cases h5 : t.drop 5 = []
      · have h5' : (t.drop 5).isEmpty = true := by
          rw [h5]
          rfl
        have hnone : getTemplateInstallPackage pr (some t) d = none := by
          simp only [getTemplateInstallPackage, h0', hf, h5']
          simp
        rw [hnone]
        simp [hf, h5]
      · have h5' : (t.drop 5).isEmpty = false := by
          cases hx : t.drop 5
          · exact absurd hx h5
          · rfl
        by_cases hall : (t.drop 5).all (fun c => !isLineTerminator c) = true
        · rw [getTemplateInstallPackage_file pr d hf h5' hall]
          simp [hf, hall, h5]
        · have hall' : (t.drop 5).all (fun c => !isLineTerminator c) =
              false := bool_ne_true hall
          have hnone : getTemplateInstallPackage pr (some t) d = none := by
            simp only [getTemplateInstallPackage, h0', hf, hall']
            simp
          rw [hnone]
          simp [hf, hall']
    · have hf' : "file:".data.isPrefixOf t = false := bool_ne_true hf
      by_cases hu : jsIncludes "://".data t = true
      · rw [getTemplateInstallPackage_passthrough pr d hf' (by rw [hu]; rfl)]
        simp [hf', hu]
      · have hu' : jsIncludes "://".data t = false := bool_ne_true hu
        by_cases ha : matchesArchive t = true
        · rw [getTemplateInstallPackage_passthrough pr d hf'
            (by rw [ha]; simp)]
          simp [hf', ha]
        · have ha' : matchesArchive t = false := bool_ne_true ha
          rw [getTemplateInstallPackage_package pr d h0 hf' hu' ha']
          cases hm : matchPackagePattern t with
          | none => simp [hf', hu', ha', hm, h0]
          | some x =>
            cases x with
            | mk sc nv =>
              cases nv with
              | mk n v => simp [hf', hu', ha', hm, h0]

/-- C2: a package-style input decomposing into an optional scope, a present
name neither equal to nor prefixed by the default template base, and an
optional version resolves to `scope ++ "tjs-template-" ++ name ++ version`,
with scope and version preserved unchanged. -/
theorem packageStyle_injects_default_base
    (pr : List Char → List Char → List Char) (t d sc n v : List Char)
    (hf : "file:".data.isPrefixOf t = false)
    (hu : jsIncludes "://".data t = false)
    (ha : matchesArchive t = false)
    (hm : matchPackagePattern t = some (sc, n, v))
    (hname : n ≠ [])
    (hne1 : n ≠ "tjs-template".data)
    (hne2 : "tjs-template-".data.isPrefixOf n = false) :
    getTemplateInstallPackage pr (some t) d =
      some (sc ++ "tjs-template-".data ++ n ++ v) := by
  obtain ⟨hrecon, -, -, -⟩ := matchPackagePattern_spec hm
  have hne : t ≠ [] := by
    rintro rfl
    obtain ⟨-, hnv⟩ := List.append_eq_nil.mp hrecon
    exact hname (List.append_eq_nil.mp hnv).1
  rw [getTemplateInstallPackage_package_some pr d hne hf hu ha hm]
  have hcond1 : ¬(n = defaultTemplate ∨
      (defaultTemplate ++ ['-']).isPrefixOf n = true) := by
    rintro (h | h)
    · exact hne1 h
    · rw [show (defaultTemplate ++ ['-'] : List Char) = "tjs-template-".data
        from rfl] at h
      rw [hne2] at h
      exact absurd h (by simp)
  have hcond2 : ¬(v ≠ [] ∧ sc = [] ∧ n = []) := by
    rintro ⟨-, -, hn0⟩
    exact hname hn0
  unfold packageResult
  rw [if_neg hcond1, if_neg hcond2]
  rw [show ("tjs-template-".data : List Char) = defaultTemplate ++ ['-']
    from rfl]
  simp

/-- C2 (witness): `"@scope/my-template@1.0.0"` resolves to
`"@scope/tjs-template-my-template@1.0.0"`. -/
theorem packageStyle_injects_default_base_witness :
    getTemplateInstallPackage (fun _ s => s)
      (some "@scope/my-template@1.0.0".data) [] =
      some ("@scope/".data ++ "tjs-template-".data ++ "my-template".data ++
        "@1.0.0".data) :=
  packageStyle_injects_default_base (fun _ s => s)
    "@scope/my-template@1.0.0".data [] "@scope/".data "my-template".data
    "@1.0.0".data (by decide) (by decide) (by decide) (by decide) (by decide)
    (by decide) (by decide)

/-- C3: an input reaching the package-style branch whose decomposed name is
the default template base or starts with `"tjs-template-"` is returned
unchanged: branch 3a is the identity on canonical-family inputs. -/
theorem canonicalFamily_identity
    (pr : List Char → List Char → List Char) (t d sc n v : List Char)
    (hf : "file:".data.isPrefixOf t = false)
    (hu : jsIncludes "://".data t = false)
    (ha : matchesArchive t = false)
    (hm : matchPackagePattern t = some (sc, n, v))
    (hcan : n = "tjs-template".data ∨
      "tjs-template-".data.isPrefixOf n = true) :
    getTemplateInstallPackage pr (some t) d = some t := by
  obtain ⟨hrecon, -, -, -⟩ := matchPackagePattern_spec hm
  have hne : t ≠ [] := by
    rintro rfl
    obtain ⟨-, hnv⟩ := List.append_eq_nil.mp hrecon
    have hn0 : n = [] := (List.append_eq_nil.mp hnv).1
    rcases hcan with h | h
    · rw [hn0] at h
      exact absurd h (by decide)
    · rw [hn0] at h
      exact absurd h (by decide)
  rw [getTemplateInstallPackage_package_some pr d hne hf hu ha hm]
  have hcan' : n = defaultTemplate ∨
      (defaultTemplate ++ ['-']).isPrefixOf n = true := hcan
  unfold packageResult
  rw [if_pos hcan', List.append_assoc, hrecon]

/-- C3 (witness): `"@scope/tjs-template-rollup-library@next"` is a fixed
point. -/
theorem canonicalFamily_identity_witness :
    getTemplateInstallPackage (fun _ s => s)
      (some "@scope/tjs-template-rollup-library@next".data) [] =
      some "@scope/tjs-template-rollup-library@next".data :=
  canonicalFamily_identity (fun _ s => s)
    "@scope/tjs-template-rollup-library@next".data [] "@scope/".data
    "tjs-template-rollup-library".data "@next".data (by decide) (by decide)
    (by decide) (by decide) (by decide)

/-- C4: an input whose decomposition captured a version fragment but no
scope and no name (the scope-only case, e.g. `"@scope"`) resolves to the
captured fragment followed by `"/tjs-template"`. -/
theorem scopeOnly_appends_default
    (pr : List Char → List Char → List Char) (t d v : List Char)
    (hf : "file:".data.isPrefixOf t = false)
    (hu : jsIncludes "://".data t = false)
    (ha : matchesArchive t = false)
    (hm : matchPackagePattern t = some ([], [], v))
    (hv : v ≠ []) :
    getTemplateInstallPackage pr (some t) d =
      some (v ++ "/tjs-template".data) := by
  obtain ⟨hrecon, -, -, -⟩ := matchPackagePattern_spec hm
  have hne : t ≠ [] := by
    rintro rfl
    obtain ⟨-, hnv⟩ := List.append_eq_nil.mp hrecon
    exact hv (List.append_eq_nil.mp hnv).2
  rw [getTemplateInstallPackage_package_some pr d hne hf hu ha hm]
  unfold packageResult
  rw [if_neg (by decide : ¬(([] : List Char) = defaultTemplate ∨
    (defaultTemplate ++ ['-']).isPrefixOf ([] : List Char) = true))]
  rw [if_pos (⟨hv, rfl, rfl⟩ :
    v ≠ [] ∧ ([] : List Char) = [] ∧ ([] : List Char) = [])]
  rfl

/-- C4 (witness): `"@scope"` resolves to `"@scope/tjs-template"`. -/
theorem scopeOnly_appends_default_witness :
    getTemplateInstallPackage (fun _ s => s) (some "@scope".data) [] =
      some ("@scope".data ++ "/tjs-template".data) :=
  scopeOnly_appends_default (fun _ s => s) "@scope".data [] "@scope".data
    (by decide) (by decide) (by decide) (by decide) (by decide)

/-- C5 (counterexample): the bare string `".tgz"` ends with a recognized
archive extension but is not passed through unchanged: the archive regex
`/^.+\.(tgz|tar\.gz)$/` requires at least one character before the
extension, so `".tgz"` falls into the package-style branch and gets the
`tjs-template-` prefix. -/
theorem bare_tgz_not_passthrough :
    getTemplateInstallPackage (fun _ s => s) (some ".tgz".data) [] =
      some "tjs-template-.tgz".data ∧
    getTemplateInstallPackage (fun _ s => s) (some ".tgz".data) [] ≠
      some ".tgz".data := by
  constructor
  · decide
  · decide

/-- C5 (amended): an input that does not start with `"file:"` and that
contains `"://"` or matches the archive regex (ends with `".tgz"` or
`".tar.gz"` preceded by a nonempty run of non-line-terminator characters)
is returned unchanged, verbatim. -/
theorem remoteArchive_passthrough
    (pr : List Char → List Char → List Char) (t d : List Char)
    (hf : "file:".data.isPrefixOf t = false)
    (hp : (jsIncludes "://".data t || matchesArchive t) = true) :
    getTemplateInstallPackage pr (some t) d = some t :=
  getTemplateInstallPackage_passthrough pr d hf hp

/-- C5 (witness): `"http://example.com/x.tar.gz"` passes through. -/
theorem remoteArchive_passthrough_witness :
    getTemplateInstallPackage (fun _ s => s)
      (some "http://example.com/x.tar.gz".data) [] =
      some "http://example.com/x.tar.gz".data :=
  remoteArchive_passthrough (fun _ s => s) "http://example.com/x.tar.gz".data
    [] (by decide) (by decide)

/-- C6 (counterexample): `"file:a\nb"` starts with `"file:"` but the
resolver throws on it instead of returning a `file:` reference: the second
regex `/^file:(.*)?$/` cannot match a suffix containing a line terminator,
so reading group 1 of the `null` result throws. -/
theorem file_newline_throws :
    "file:".data.isPrefixOf "file:a\nb".data = true ∧
    getTemplateInstallPackage (fun _ s => s) (some "file:a\nb".data) [] =
      none := by
  constructor
  · decide
  · decide

/-- C6 (amended): for every input starting with `"file:"` whose raw suffix
after `"file:"` is nonempty and contains no line terminator — including
inputs that also contain `"://"` or end in `".tgz"`/`".tar.gz"`, since the
local-path branch is checked first — the resolver returns `"file:"`
followed by the result of resolving the raw suffix against the base
directory.  An empty suffix (the bare input `"file:"`) is excluded: there
the `(.*)?` capture is `undefined` and `path.resolve` throws on it. -/
theorem filePath_resolves_suffix
    (pr : List Char → List Char → List Char) (t d : List Char)
    (hf : "file:".data.isPrefixOf t = true)
    (hsuf : t.drop 5 ≠ [])
    (hterm : (t.drop 5).all (fun c => !isLineTerminator c) = true) :
    getTemplateInstallPackage pr (some t) d =
      some ("file:".data ++ pr d (t.drop 5)) := by
  have h5 : (t.drop 5).isEmpty = false := by
    cases hx : t.drop 5
    · exact absurd hx hsuf
    · rfl
  exact getTemplateInstallPackage_file pr d hf h5 hterm

/-- C6 (witness): `"file:../x"` with base directory `"/base"` and the
resolver collaborator modelled as concatenation. -/
theorem filePath_resolves_suffix_witness :
    getTemplateInstallPackage (fun d s => d ++ s) (some "file:../x".data)
      "/base".data =
      some ("file:".data ++ ("/base".data ++ "file:../x".data.drop 5)) :=
  filePath_resolves_suffix (fun d s => d ++ s) "file:../x".data "/base".data
    (by decide) (by decide) (by decide)

/-- C7: an absent or empty template argument resolves to the literal
default template reference `"tjs-template"`, regardless of the base
directory. -/
theorem absent_or_empty_gives_default
    (pr : List Char → List Char → List Char) (d : List Char) :
    getTemplateInstallPackage pr none d = some "tjs-template".data ∧
    getTemplateInstallPackage pr (some []) d = some "tjs-template".data := by
  constructor
  · rfl
  · rfl

/-- C8 (counterexample): the resolver is not idempotent on all of its
package-style results: `"@a/b@"` reaches the package branch and resolves to
`"@a/b@/tjs-template"`, but resolving that output again yields
`"@a/tjs-template-b@/tjs-template"`, a different string. -/
theorem scopeOnly_result_not_idempotent :
    getTemplateInstallPackage (fun _ s => s) (some "@a/b@".data) [] =
      some "@a/b@/tjs-template".data ∧
    getTemplateInstallPackage (fun _ s => s)
      (some "@a/b@/tjs-template".data) [] =
      some "@a/tjs-template-b@/tjs-template".data ∧
    "@a/tjs-template-b@/tjs-template".data ≠ "@a/b@/tjs-template".data := by
  refine ⟨by decide, by decide, by decide⟩

/-- C8 (amended): the resolver is idempotent on its package-style results
except those of the scope-only branch: for every nonempty input reaching
the package-style branch whose decomposition is not (version captured, no
scope, no name), applying the resolver to its result returns that result
again. -/
theorem resolver_idempotent_off_scopeOnly
    (pr : List Char → List Char → List Char) (t d sc n v : List Char)
    (hne : t ≠ [])
    (hf : "file:".data.isPrefixOf t = false)
    (hu : jsIncludes "://".data t = false)
    (ha : matchesArchive t = false)
    (hm : matchPackagePattern t = some (sc, n, v))
    (hb : ¬(v ≠ [] ∧ sc = [] ∧ n = [])) :
    ∃ r, getTemplateInstallPackage pr (some t) d = some r ∧
      getTemplateInstallPackage pr (some r) d = some r := by
  obtain ⟨hrecon, hscope, hnameat, hver⟩ := matchPackagePattern_spec hm
  have ht := getTemplateInstallPackage_package_some pr d hne hf hu ha hm
  by_cases hcan : n = defaultTemplate ∨
      (defaultTemplate ++ ['-']).isPrefixOf n = true
  · have hres : packageResult sc n v = t := by
      unfold packageResult
      rw [if_pos hcan, List.append_assoc, hrecon]
    rw [hres] at ht
    exact ⟨t, ht, by rw [ht]⟩
  · have hres : packageResult sc n v =
        sc ++ defaultTemplate ++ '-' :: (n ++ v) := by
      unfold packageResult
      rw [if_neg hcan, if_neg hb]
    rw [hres] at ht
    refine ⟨sc ++ defaultTemplate ++ '-' :: (n ++ v), ht, ?_⟩
    have hrf : "file:".data.isPrefixOf
        (sc ++ defaultTemplate ++ '-' :: (n ++ v)) = false := by
      rcases hscope with rfl | ⟨b, rfl, -, -⟩
      · exact (show "file:".data.isPrefixOf
          ('t' :: ("js-template".data ++ '-' :: (n ++ v))) = false from
          isPrefixOf_file_cons 't' _ (by decide))
      · exact (show "file:".data.isPrefixOf
          ('@' :: (((b ++ ['/']) ++ defaultTemplate) ++ '-' :: (n ++ v))) =
            false from isPrefixOf_file_cons '@' _ (by decide))
    by_cases hp : (jsIncludes "://".data
        (sc ++ defaultTemplate ++ '-' :: (n ++ v)) ||
        matchesArchive (sc ++ defaultTemplate ++ '-' :: (n ++ v))) = true
    · exact getTemplateInstallPackage_passthrough pr d hrf hp
    · have hu2 : jsIncludes "://".data
          (sc ++ defaultTemplate ++ '-' :: (n ++ v)) = false := by
        cases hju : jsIncludes "://".data
          (sc ++ defaultTemplate ++ '-' :: (n ++ v))
        · rfl
        · exact absurd (by rw [hju]; rfl) hp
      have ha2 : matchesArchive
          (sc ++ defaultTemplate ++ '-' :: (n ++ v)) = false := by
        cases hja : matchesArchive (sc ++ defaultTemplate ++ '-' :: (n ++ v))
        · rfl
        · exact absurd (by rw [hja]; simp) hp
      have hrne : sc ++ defaultTemplate ++ '-' :: (n ++ v) ≠ [] := by
        intro hx
        exact absurd (List.append_eq_nil.mp hx).2 (by simp)
      have h2 := getTemplateInstallPackage_package_some pr d hrne hrf hu2 ha2
        (matchPackagePattern_canonical hscope hnameat hver)
      rw [h2]
      have hpref : (defaultTemplate ++ ['-']).isPrefixOf
          (defaultTemplate ++ '-' :: n) = true := by
        rw [show (defaultTemplate ++ '-' :: n : List Char) =
          (defaultTemplate ++ ['-']) ++ n by simp]
        exact isPrefixOf_append_right _ _
      have hfix : packageResult sc (defaultTemplate ++ '-' :: n) v =
          sc ++ defaultTemplate ++ '-' :: (n ++ v) := by
        unfold packageResult
        rw [if_pos (Or.inr hpref)]
        simp
      rw [hfix]

/-- C8 (witness): `"my-template"` reaches the package branch with no
scope and no version; its result `"tjs-template-my-template"` is a fixed
point. -/
theorem resolver_idempotent_off_scopeOnly_witness :
    ∃ r, getTemplateInstallPackage (fun _ s => s) (some "my-template".data)
        [] = some r ∧
      getTemplateInstallPackage (fun _ s => s) (some r) [] = some r :=
  resolver_idempotent_off_scopeOnly (fun _ s => s) "my-template".data []
    [] "my-template".data [] (by decide) (by decide) (by decide) (by decide)
    (by decide) (by decide)

/-- C9: the base directory (and the path-resolution collaborator) influence
the result only in the local-path branch: for every input not starting with
`"file:"`, any two base directories and any two path resolvers give the
same result; the embedding is a pure function, so the result depends on
nothing but its arguments. -/
theorem baseDir_only_affects_file_branch
    (pr1 pr2 : List Char → List Char → List Char) (t d1 d2 : List Char)
    (hf : "file:".data.isPrefixOf t = false) :
    getTemplateInstallPackage pr1 (some t) d1 =
      getTemplateInstallPackage pr2 (some t) d2 := by
  simp only [getTemplateInstallPackage, hf, Bool.false_eq_true, if_false]

/-- C9 (witness): two different resolvers and base directories agree on
`"my-template"`. -/
theorem baseDir_only_affects_file_branch_witness :
    getTemplateInstallPackage (fun _ s => s) (some "my-template".data)
      "/a".data =
      getTemplateInstallPackage (fun d _ => d) (some "my-template".data)
        "/b".data :=
  baseDir_only_affects_file_branch (fun _ s => s) (fun d _ => d)
    "my-template".data "/a".data "/b".data (by decide)

/-- C10 (counterexample): the bare input `"file:"` does not resolve to
`"file:"` plus the resolved base directory — the resolver throws on it.
The min-zero quantifier `(.*)?` refuses an empty iteration (ECMA
RepeatMatcher empty-match rule), so group 1 of `/^file:(.*)?$/` is
`undefined`, and `path.resolve(dir, undefined)` throws a TypeError in
Node >= 12. -/
theorem bare_file_input_not_resolved :
    getTemplateInstallPackage (fun _ s => s) (some "file:".data) [] =
      none ∧
    getTemplateInstallPackage (fun _ s => s) (some "file:".data) [] ≠
      some "file:".data := by
  constructor
  · rfl
  · decide

/-- C10 (amended): for the input `"file:"` with an empty suffix the
resolver throws a TypeError (modelled as `none`) for every base directory
and path-resolve collaborator, rather than returning a `file:`
reference. -/
theorem file_empty_suffix_throws
    (pr : List Char → List Char → List Char) (d : List Char) :
    getTemplateInstallPackage pr (some "file:".data) d = none := by
  rfl
